import Mathlib

/-!
Shallow embedding of the modelplex gateway's core code and proofs about it:
the model router (internal/multiplexer/multiplexer.go), the provider
adapters (internal/providers: openai.go, anthropic.go, ollama.go) and the
MCP client (internal/mcp/client.go).

Dynamic Go values (interface values decoded from JSON) are embedded as the
inductive JSONValue; Go maps with string keys are embedded as association
lists looked up by first match (the embedding only ever inserts a key that
is absent, so lookup agrees with Go map semantics); fallible Go calls are
embedded as Except / Option results; the outcome of an HTTP round trip and
the winning arm of a select statement are passed in as explicit oracle
arguments.  Numeric JSON values are embedded as integers: every numeric
value the embedded code manipulates is integral.
-/

namespace Modelplex

/-- Dynamic JSON-like document: the shape Go's encoding/json produces when
decoding into an interface value (null, booleans, numbers, strings, arrays,
string-keyed objects). -/
inductive JSONValue where
  | null : JSONValue
  | bool (b : Bool) : JSONValue
  | num (n : Int) : JSONValue
  | str (s : String) : JSONValue
  | arr (elems : List JSONValue) : JSONValue
  | obj (fields : List (String × JSONValue)) : JSONValue

/-- Lookup in a string-keyed association list (embedding of Go map indexing;
`none` embeds Go's missing-key result). -/
def mapGet {α : Type} : List (String × α) → String → Option α
  | [], _ => none
  | (k', v) :: rest, k => if k' = k then some v else mapGet rest k

/-- Field access on a JSON object document. -/
def JSONValue.getField : JSONValue → String → Option JSONValue
  | .obj fields, k => mapGet fields k
  | _, _ => none

/-- A Go `map[string]interface` value, e.g. one chat message. -/
abbrev GoObject := List (String × JSONValue)

/-- config.Provider from internal/config/config.go: name, type, base_url,
api_key, models, priority.  The Go field `Type` is spelled `type'` because
`type` is reserved in Lean. -/
structure ProviderConfig where
  name : String
  type' : String
  baseURL : String
  apiKey : String
  models : List String
  priority : Int
  deriving DecidableEq

/-- The process environment as seen through os.Getenv: an unset variable
reads as the empty string. -/
def Env : Type := String → String

/-- The api-key resolution performed by NewOpenAIProvider and
NewAnthropicProvider: a value of the syntactic shape dollar-brace NAME
brace is replaced by the value of the environment variable NAME
(strings.HasPrefix / HasSuffix, then TrimPrefix / TrimSuffix). -/
def resolveAPIKey (env : Env) (apiKey : String) : String :=
  if List.isPrefixOf "$\x7b".data apiKey.data
      && List.isSuffixOf "\x7d".data apiKey.data then
    env (String.mk ((apiKey.data.drop 2).dropLast))
  else apiKey

/-- OpenAIProvider (internal/providers/openai.go); the http.Client field
carries no state relevant to the embedding and is omitted. -/
structure OpenAIProvider where
  name : String
  baseURL : String
  apiKey : String
  models : List String
  priority : Int
  deriving DecidableEq

/-- AnthropicProvider (internal/providers/anthropic.go). -/
structure AnthropicProvider where
  name : String
  baseURL : String
  apiKey : String
  models : List String
  priority : Int
  deriving DecidableEq

/-- OllamaProvider (internal/providers/ollama.go): no api key and no
credential resolution. -/
structure OllamaProvider where
  name : String
  baseURL : String
  models : List String
  priority : Int
  deriving DecidableEq

/-- NewOpenAIProvider: copies the configuration and resolves the api key
against the environment. -/
def NewOpenAIProvider (env : Env) (cfg : ProviderConfig) : OpenAIProvider :=
  { name := cfg.name, baseURL := cfg.baseURL,
    apiKey := resolveAPIKey env cfg.apiKey,
    models := cfg.models, priority := cfg.priority }

/-- NewAnthropicProvider: copies the configuration and resolves the api key
against the environment. -/
def NewAnthropicProvider (env : Env) (cfg : ProviderConfig) : AnthropicProvider :=
  { name := cfg.name, baseURL := cfg.baseURL,
    apiKey := resolveAPIKey env cfg.apiKey,
    models := cfg.models, priority := cfg.priority }

/-- NewOllamaProvider: copies the configuration verbatim. -/
def NewOllamaProvider (cfg : ProviderConfig) : OllamaProvider :=
  { name := cfg.name, baseURL := cfg.baseURL,
    models := cfg.models, priority := cfg.priority }

/-- The providers.Provider interface; a value is one of the three concrete
adapters. -/
inductive Provider where
  | openai (p : OpenAIProvider)
  | anthropic (p : AnthropicProvider)
  | ollama (p : OllamaProvider)
  deriving DecidableEq

/-- The Priority method of the three adapters. -/
def Provider.Priority : Provider → Int
  | .openai p => p.priority
  | .anthropic p => p.priority
  | .ollama p => p.priority

/-- providers.NewProvider: dispatch on the configured type string; an
unknown type yields nil (embedded as `none`). -/
def NewProvider (env : Env) (cfg : ProviderConfig) : Option Provider :=
  match cfg.type' with
  | "openai" => some (.openai (NewOpenAIProvider env cfg))
  | "anthropic" => some (.anthropic (NewAnthropicProvider env cfg))
  | "ollama" => some (.ollama (NewOllamaProvider cfg))
  | _ => none

/-- multiplexer.ModelMultiplexer: the adapter list and the model-name map. -/
structure ModelMultiplexer where
  providers : List Provider
  modelMap : List (String × Provider)
  deriving DecidableEq

/-- The inner loop of multiplexer.New over one configuration's model list:
each model name not already present in the map is bound to the provider. -/
def registerModels (provider : Provider) (models : List String)
    (modelMap : List (String × Provider)) : List (String × Provider) :=
  models.foldl
    (fun mm model =>
      if (mapGet mm model).isSome then mm else mm ++ [(model, provider)])
    modelMap

/-- One iteration of the construction loop of multiplexer.New: a
configuration whose type is unknown is skipped; otherwise its provider is
appended and its models registered first-writer-wins. -/
def newStep (env : Env) (acc : List Provider × List (String × Provider))
    (cfg : ProviderConfig) : List Provider × List (String × Provider) :=
  match NewProvider env cfg with
  | some provider =>
      (acc.1 ++ [provider], registerModels provider cfg.models acc.2)
  | none => acc

/-- The construction loop of multiplexer.New: builds the provider list (in
configuration order, skipping configurations whose type is unknown) and the
first-writer-wins model map. -/
def newLoop (env : Env) (configs : List ProviderConfig) :
    List Provider × List (String × Provider) :=
  configs.foldl (newStep env) ([], [])

/-- multiplexer.New.  The final `sort.Slice(m.providers, less-by-priority)`
call is a Go standard-library routine, not repository code; it is embedded
as an explicit function argument `sortSlice`, constrained in the theorems
below by sort.Slice's documented contract at its call site (the output is a
permutation of the input, ordered by the less function) — sort.Slice
documents that it is NOT guaranteed to be stable. -/
def New (env : Env) (sortSlice : List Provider → List Provider)
    (configs : List ProviderConfig) : ModelMultiplexer :=
  { providers := sortSlice (newLoop env configs).1,
    modelMap := (newLoop env configs).2 }

/-- multiplexer.ModelMultiplexer.GetProvider: exact model-map hit, else the
head of the sorted provider list, else the "no provider available" error. -/
def GetProvider (m : ModelMultiplexer) (model : String) :
    Except String Provider :=
  match mapGet m.modelMap model with
  | some provider => .ok provider
  | none =>
      match m.providers with
      | provider :: _ => .ok provider
      | [] => .error ("no provider available for model: " ++ model)

/-- The postcondition sort.Slice establishes with the less function
`providers[i].Priority() < providers[j].Priority()`: pairwise
non-decreasing priority. -/
def SortedByPriority (l : List Provider) : Prop :=
  l.Pairwise (fun a b => a.Priority ≤ b.Priority)

instance : DecidablePred SortedByPriority := fun l =>
  inferInstanceAs
    (Decidable (l.Pairwise (fun a b => Provider.Priority a ≤ Provider.Priority b)))

/-- Specification-side description of which provider multiplexer.New binds
to a model name M: the provider of the first configuration (in
configuration order) that both constructs a provider and lists M. -/
def firstProviderFor (env : Env) (M : String) :
    List ProviderConfig → Option Provider
  | [] => none
  | cfg :: rest =>
      match NewProvider env cfg with
      | some p => if M ∈ cfg.models then some p else firstProviderFor env M rest
      | none => firstProviderFor env M rest

/-- First-hit combination of two optional results (helper for describing
first-writer-wins maps). -/
def orO {α : Type} : Option α → Option α → Option α
  | some a, _ => some a
  | none, b => b

lemma orO_none {α : Type} (a : Option α) : orO a none = a := by
  cases a <;> rfl

lemma orO_assoc {α : Type} (a b c : Option α) :
    orO (orO a b) c = orO a (orO b c) := by
  cases a <;> rfl

lemma mapGet_append_single {α : Type} (mm : List (String × α)) (k M : String)
    (p : α) :
    mapGet (mm ++ [(k, p)]) M =
      orO (mapGet mm M) (if k = M then some p else none) := by
  induction mm with
  | nil => simp [mapGet, orO]
  | cons hd tl ih =>
      obtain ⟨k', v⟩ := hd
      by_cases h : k' = M <;> simp [mapGet, h, ih, orO]

lemma mapGet_registerModels (p : Provider) (models : List String)
    (mm : List (String × Provider)) (M : String) :
    mapGet (registerModels p models mm) M =
      orO (mapGet mm M) (if M ∈ models then some p else none) := by
  induction models generalizing mm with
  | nil => simp [registerModels, orO_none]
  | cons mo rest ih =>
      have step : registerModels p (mo :: rest) mm =
          registerModels p rest
            (if (mapGet mm mo).isSome then mm else mm ++ [(mo, p)]) := by
        simp [registerModels]
      rw [step]
      by_cases hmo : (mapGet mm mo).isSome
      · rw [if_pos hmo, ih]
        by_cases hM : M = mo
        · subst hM
          obtain ⟨v, hv⟩ := Option.isSome_iff_exists.mp hmo
          simp [hv, orO]
        · simp [List.mem_cons, hM]
      · rw [if_neg hmo, ih, mapGet_append_single, orO_assoc]
        congr 1
        by_cases hM : mo = M
        · subst hM
          simp [orO]
        · have hM' : ¬M = mo := fun h => hM h.symm
          simp [hM, hM', List.mem_cons, orO]

lemma newLoop_go_fst (env : Env) (configs : List ProviderConfig)
    (acc : List Provider × List (String × Provider)) :
    (configs.foldl (newStep env) acc).1 =
      acc.1 ++ configs.filterMap (NewProvider env) := by
  induction configs generalizing acc with
  | nil => simp
  | cons c cs ih =>
      rw [List.foldl_cons, ih]
      cases h : NewProvider env c with
      | none => simp [newStep, h, List.filterMap_cons]
      | some p => simp [newStep, h, List.filterMap_cons]

lemma newLoop_go_snd (env : Env) (configs : List ProviderConfig)
    (acc : List Provider × List (String × Provider)) (M : String) :
    mapGet (configs.foldl (newStep env) acc).2 M =
      orO (mapGet acc.2 M) (firstProviderFor env M configs) := by
  induction configs generalizing acc with
  | nil => simp [firstProviderFor, orO_none]
  | cons c cs ih =>
      rw [List.foldl_cons, ih]
      cases h : NewProvider env c with
      | none => simp [newStep, h, firstProviderFor]
      | some p =>
          simp only [newStep, h, firstProviderFor]
          rw [mapGet_registerModels, orO_assoc]
          congr 1
          by_cases hM : M ∈ c.models
          · simp [hM, orO]
          · simp [hM, orO]

/-- The provider list accumulated by multiplexer.New is exactly the
providers of the constructible configurations, in configuration order. -/
lemma newLoop_fst (env : Env) (configs : List ProviderConfig) :
    (newLoop env configs).1 = configs.filterMap (NewProvider env) := by
  simpa using newLoop_go_fst env configs ([], [])

/-- The model map built by multiplexer.New binds M to the provider of the
first constructible configuration listing M. -/
lemma newLoop_snd (env : Env) (configs : List ProviderConfig) (M : String) :
    mapGet (newLoop env configs).2 M = firstProviderFor env M configs := by
  simpa [orO] using newLoop_go_snd env configs ([], []) M

lemma firstProviderFor_unique (env : Env) (configs : List ProviderConfig)
    (M : String) (c : ProviderConfig) (p : Provider)
    (hc : c ∈ configs) (hM : M ∈ c.models)
    (huniq : ∀ c' ∈ configs, M ∈ c'.models → c' = c)
    (hp : NewProvider env c = some p) :
    firstProviderFor env M configs = some p := by
  induction configs with
  | nil => exact absurd hc (List.not_mem_nil c)
  | cons h t ih =>
      by_cases hMh : M ∈ h.models
      · have : h = c := huniq h (List.mem_cons_self h t) hMh
        subst this
        simp [firstProviderFor, hp, hMh]
      · have hct : c ∈ t := by
          rcases List.mem_cons.mp hc with rfl | hct
          · exact absurd hM hMh
          · exact hct
        have huniq' : ∀ c' ∈ t, M ∈ c'.models → c' = c := fun c' hc' =>
          huniq c' (List.mem_cons_of_mem h hc')
        cases hNh : NewProvider env h with
        | none => simpa [firstProviderFor, hNh] using ih hct huniq'
        | some q => simpa [firstProviderFor, hNh, hMh] using ih hct huniq'

lemma firstProviderFor_not_listed (env : Env) (configs : List ProviderConfig)
    (M : String) (hM : ∀ cfg ∈ configs, M ∉ cfg.models) :
    firstProviderFor env M configs = none := by
  induction configs with
  | nil => rfl
  | cons h t ih =>
      have hMh : M ∉ h.models := hM h (List.mem_cons_self h t)
      have ih' := ih fun cfg hcfg => hM cfg (List.mem_cons_of_mem h hcfg)
      cases hNh : NewProvider env h with
      | none => simpa [firstProviderFor, hNh] using ih'
      | some q => simpa [firstProviderFor, hNh, hMh] using ih'

lemma firstProviderFor_first (env : Env) (l₁ l₂ : List ProviderConfig)
    (c : ProviderConfig) (M : String) (p : Provider)
    (hM : M ∈ c.models) (hp : NewProvider env c = some p)
    (hskip : ∀ c' ∈ l₁, M ∈ c'.models → NewProvider env c' = none) :
    firstProviderFor env M (l₁ ++ c :: l₂) = some p := by
  induction l₁ with
  | nil => simp [firstProviderFor, hp, hM]
  | cons h t ih =>
      have ih' := ih fun c' hc' => hskip c' (List.mem_cons_of_mem h hc')
      cases hNh : NewProvider env h with
      | none => simpa [firstProviderFor, hNh] using ih'
      | some q =>
          have hMh : M ∉ h.models := by
            intro hmem
            have := hskip h (List.mem_cons_self h t) hmem
            rw [hNh] at this
            exact Option.noConfusion this
          simpa [firstProviderFor, hNh, hMh] using ih'

lemma GetProvider_of_lookup (m : ModelMultiplexer) (M : String) (p : Provider)
    (h : mapGet m.modelMap M = some p) :
    GetProvider m M = .ok p := by
  simp [GetProvider, h]

/-- C3: a model name M listed by exactly one provider configuration (whose
type builds a provider) is routed by GetProvider to exactly the provider
built from that configuration, for every sort function — hence
independently of configuration order (third conjunct); when several
configurations list the same M, the first configuration that both builds a
provider and lists M wins (second conjunct). -/
theorem claim_C3_model_index_routing (env : Env)
    (f : List Provider → List Provider) :
    (∀ (configs : List ProviderConfig) (M : String) (c : ProviderConfig)
        (p : Provider), c ∈ configs → M ∈ c.models →
        (∀ c' ∈ configs, M ∈ c'.models → c' = c) →
        NewProvider env c = some p →
        GetProvider (New env f configs) M = .ok p)
    ∧ (∀ (l₁ l₂ : List ProviderConfig) (c : ProviderConfig) (M : String)
        (p : Provider), M ∈ c.models → NewProvider env c = some p →
        (∀ c' ∈ l₁, M ∈ c'.models → NewProvider env c' = none) →
        GetProvider (New env f (l₁ ++ c :: l₂)) M = .ok p)
    ∧ (∀ (f' : List Provider → List Provider)
        (configs₁ configs₂ : List ProviderConfig) (M : String)
        (c : ProviderConfig) (p : Provider), configs₁.Perm configs₂ →
        c ∈ configs₁ → M ∈ c.models →
        (∀ c' ∈ configs₁, M ∈ c'.models → c' = c) →
        NewProvider env c = some p →
        GetProvider (New env f configs₁) M =
          GetProvider (New env f' configs₂) M) := by
  have base : ∀ (g : List Provider → List Provider)
      (configs : List ProviderConfig) (M : String) (c : ProviderConfig)
      (p : Provider), c ∈ configs → M ∈ c.models →
      (∀ c' ∈ configs, M ∈ c'.models → c' = c) →
      NewProvider env c = some p →
      GetProvider (New env g configs) M = .ok p := by
    intro g configs M c p hc hM huniq hp
    apply GetProvider_of_lookup
    show mapGet (newLoop env configs).2 M = some p
    rw [newLoop_snd]
    exact firstProviderFor_unique env configs M c p hc hM huniq hp
  refine ⟨fun configs M c p => base f configs M c p, ?_, ?_⟩
  · intro l₁ l₂ c M p hM hp hskip
    apply GetProvider_of_lookup
    show mapGet (newLoop env (l₁ ++ c :: l₂)).2 M = some p
    rw [newLoop_snd]
    exact firstProviderFor_first env l₁ l₂ c M p hM hp hskip
  · intro f' configs₁ configs₂ M c p hperm hc hM huniq hp
    have h₁ := base f configs₁ M c p hc hM huniq hp
    have h₂ := base f' configs₂ M c p (hperm.mem_iff.mp hc) hM
      (fun c' hc' => huniq c' (hperm.mem_iff.mpr hc')) hp
    rw [h₁, h₂]

/-- C4: for a model name listed by no configuration, GetProvider falls back
to the head of the priority-sorted adapter list — an adapter of minimal
priority value among all constructed adapters — and returns the
"no provider available" error exactly when zero adapters were constructed.
The sort.Slice call is constrained by its documented contract (sorted
permutation) through the two hypotheses. -/
theorem claim_C4_unknown_model_fallback (env : Env)
    (f : List Provider → List Provider) (configs : List ProviderConfig)
    (M : String)
    (hperm : (f (newLoop env configs).1).Perm (newLoop env configs).1)
    (hsorted : SortedByPriority (f (newLoop env configs).1))
    (hM : ∀ cfg ∈ configs, M ∉ cfg.models) :
    (∀ (p : Provider) (rest : List Provider),
        (New env f configs).providers = p :: rest →
        GetProvider (New env f configs) M = .ok p ∧
        p ∈ configs.filterMap (NewProvider env) ∧
        ∀ q ∈ configs.filterMap (NewProvider env), p.Priority ≤ q.Priority)
    ∧ ((∃ e, GetProvider (New env f configs) M = .error e) ↔
        configs.filterMap (NewProvider env) = []) := by
  have hlookup : mapGet (New env f configs).modelMap M = none := by
    show mapGet (newLoop env configs).2 M = none
    rw [newLoop_snd]
    exact firstProviderFor_not_listed env configs M hM
  have hbuilt : (newLoop env configs).1 = configs.filterMap (NewProvider env) :=
    newLoop_fst env configs
  constructor
  · intro p rest hcons
    have hcons' : f (newLoop env configs).1 = p :: rest := hcons
    have hmem : p ∈ configs.filterMap (NewProvider env) := by
      rw [← hbuilt]
      exact hperm.mem_iff.mp (by rw [hcons']; exact List.mem_cons_self p rest)
    refine ⟨?_, hmem, ?_⟩
    · simp [GetProvider, hlookup, hcons]
    · intro q hq
      have hqmem : q ∈ f (newLoop env configs).1 := by
        apply hperm.mem_iff.mpr
        rw [hbuilt]
        exact hq
      rw [hcons'] at hqmem
      rcases List.mem_cons.mp hqmem with rfl | hqrest
      · exact le_refl _
      · have := hsorted
        rw [hcons'] at this
        exact (List.pairwise_cons.mp this).1 q hqrest
  · constructor
    · rintro ⟨e, he⟩
      cases hfp : f (newLoop env configs).1 with
      | nil =>
          have hpn := hperm
          rw [hfp] at hpn
          rw [← hbuilt]
          exact hpn.symm.eq_nil
      | cons p rest =>
          have : GetProvider (New env f configs) M = .ok p := by
            have hcons : (New env f configs).providers = p :: rest := hfp
            simp [GetProvider, hlookup, hcons]
          rw [this] at he
          exact Except.noConfusion he
    · intro hnil
      have hb : (newLoop env configs).1 = [] := by rw [hbuilt, hnil]
      have hlen : (f (newLoop env configs).1).length = 0 := by
        rw [hperm.length_eq, hb]
        rfl
      have hfnil : f (newLoop env configs).1 = [] :=
        List.length_eq_zero.mp hlen
      refine ⟨"no provider available for model: " ++ M, ?_⟩
      have hcons : (New env f configs).providers = [] := hfnil
      simp [GetProvider, hlookup, hcons]

/-- The environment used by concrete witnesses: every variable unset. -/
def env0 : Env := fun _ => ""

/-- Witness configuration: an OpenAI-compatible provider, priority 1,
offering gpt-4 (the spec's fallback scenario). -/
def cfgGPT : ProviderConfig :=
  { name := "openai", type' := "openai", baseURL := "https://api.openai.example/v1",
    apiKey := "sk-test", models := ["gpt-4"], priority := 1 }

/-- Witness configuration: an Anthropic-compatible provider, priority 2,
offering claude-3-sonnet. -/
def cfgClaude : ProviderConfig :=
  { name := "anthropic", type' := "anthropic",
    baseURL := "https://api.anthropic.example/v1",
    apiKey := "sk-ant-test", models := ["claude-3-sonnet"], priority := 2 }

theorem claim_C3_model_index_routing_witness :
    GetProvider (New env0 id [cfgGPT, cfgClaude]) "claude-3-sonnet" =
      .ok (.anthropic (NewAnthropicProvider env0 cfgClaude)) :=
  (claim_C3_model_index_routing env0 id).1 [cfgGPT, cfgClaude]
    "claude-3-sonnet" cfgClaude (.anthropic (NewAnthropicProvider env0 cfgClaude))
    (by decide) (by decide) (by decide) rfl

theorem claim_C4_unknown_model_fallback_witness :
    GetProvider (New env0 id [cfgGPT, cfgClaude]) "llama2" =
      .ok (.openai (NewOpenAIProvider env0 cfgGPT)) :=
  ((claim_C4_unknown_model_fallback env0 id [cfgGPT, cfgClaude] "llama2"
      (List.Perm.refl _) (by decide) (by decide)).1
    (.openai (NewOpenAIProvider env0 cfgGPT))
    [.anthropic (NewAnthropicProvider env0 cfgClaude)] (by decide)).1

/-- Counterexample configuration: an Ollama-compatible provider named "a",
priority 1. -/
def cfgTieA : ProviderConfig :=
  { name := "a", type' := "ollama", baseURL := "http://localhost:11434",
    apiKey := "", models := ["model-a"], priority := 1 }

/-- Counterexample configuration: an Ollama-compatible provider named "b",
also priority 1. -/
def cfgTieB : ProviderConfig :=
  { name := "b", type' := "ollama", baseURL := "http://localhost:11435",
    apiKey := "", models := ["model-b"], priority := 1 }

/-- C5 counterexample.  multiplexer.New sorts with sort.Slice, whose
documented contract promises only a permutation ordered by the less
function and explicitly does NOT promise stability.  List.reverse meets
that contract at this call (first conjunct: the output is a permutation of
the constructed adapter list and is sorted by priority), the two adapters
have equal priority (second conjunct), the adapters are constructed in
configuration order a-then-b (fourth conjunct), yet the constructed
multiplexer holds them in the order b-then-a (third conjunct) — so the
claim that equal-priority adapters keep their configuration order is not a
property guaranteed by the code. -/
theorem claim_C5_counterexample :
    ((List.reverse (newLoop env0 [cfgTieA, cfgTieB]).1).Perm
        (newLoop env0 [cfgTieA, cfgTieB]).1
      ∧ SortedByPriority (List.reverse (newLoop env0 [cfgTieA, cfgTieB]).1))
    ∧ (Provider.ollama (NewOllamaProvider cfgTieA)).Priority
        = (Provider.ollama (NewOllamaProvider cfgTieB)).Priority
    ∧ (New env0 List.reverse [cfgTieA, cfgTieB]).providers
        = [Provider.ollama (NewOllamaProvider cfgTieB),
            Provider.ollama (NewOllamaProvider cfgTieA)]
    ∧ (newLoop env0 [cfgTieA, cfgTieB]).1
        = [Provider.ollama (NewOllamaProvider cfgTieA),
            Provider.ollama (NewOllamaProvider cfgTieB)] := by
  refine ⟨⟨by decide, by decide⟩, by decide, by decide, by decide⟩

/-- C5 amended: at construction the adapter list is ordered ascending by
priority and is a permutation of the adapters constructed in configuration
order; because sort.Slice is not guaranteed to be stable, nothing more
about the relative order of equal-priority adapters follows from the code.
The two hypotheses are sort.Slice's documented contract at its call site. -/
theorem claim_C5_sorted_permutation (env : Env)
    (f : List Provider → List Provider) (configs : List ProviderConfig)
    (hperm : (f (newLoop env configs).1).Perm (newLoop env configs).1)
    (hsorted : SortedByPriority (f (newLoop env configs).1)) :
    ((New env f configs).providers).Perm
        (configs.filterMap (NewProvider env))
    ∧ SortedByPriority (New env f configs).providers := by
  have hbuilt : (newLoop env configs).1 = configs.filterMap (NewProvider env) :=
    newLoop_fst env configs
  constructor
  · show (f (newLoop env configs).1).Perm (configs.filterMap (NewProvider env))
    rw [← hbuilt]
    exact hperm
  · exact hsorted

theorem claim_C5_sorted_permutation_witness :
    ((New env0 id [cfgTieA, cfgTieB]).providers).Perm
        ([cfgTieA, cfgTieB].filterMap (NewProvider env0))
    ∧ SortedByPriority (New env0 id [cfgTieA, cfgTieB]).providers :=
  claim_C5_sorted_permutation env0 id [cfgTieA, cfgTieB]
    (List.Perm.refl _) (by decide)

/-! Embedding of internal/mcp/client.go: the JSON-RPC protocol constants,
request and response envelopes, the response handler run by the shared
stdout reader, and Server.callTool.  Server.callTool spawns a goroutine
that writes the request and then immediately sends a fabricated success
value, and selects over context cancellation, the write-error channel and
that fabricated response; the winning select arm is passed in as the
explicit `CallEvent` oracle. -/

/-- The fixed ID the client puts on every tools/list request. -/
def mcpListToolsRequestID : Int := 2

/-- The fixed ID the client puts on every tools/call request. -/
def mcpCallToolRequestID : Int := 99

/-- mcp.Request: a JSON-RPC request envelope. -/
structure MCPRequest where
  jsonrpc : String
  id : Int
  method : String
  params : Option JSONValue

/-- mcp.Error: a JSON-RPC error object. -/
structure MCPError where
  code : Int
  message : String

/-- mcp.Response: a JSON-RPC response envelope. -/
structure MCPResponse where
  jsonrpc : String
  id : Int
  result : Option JSONValue
  error : Option MCPError

/-- mcp.Tool: name, description and input schema of a discovered tool
(the schema field stays nil when absent or not an object). -/
structure MCPTool where
  Name : String
  Description : String
  InputSchema : Option (List (String × JSONValue))

/-- mcp.getString: string field of a decoded map, defaulting to "". -/
def getString (m : List (String × JSONValue)) (key : String) : String :=
  match mapGet m key with
  | some (.str s) => s
  | _ => ""

/-- One iteration of the tool-parsing loop in Server.handleResponse:
entries that are not objects are skipped. -/
def parseTool (toolData : JSONValue) : Option MCPTool :=
  match toolData with
  | .obj toolMap =>
      some { Name := getString toolMap "name",
             Description := getString toolMap "description",
             InputSchema :=
               match mapGet toolMap "inputSchema" with
               | some (.obj schema) => some schema
               | _ => none }
  | _ => none

/-- Server.handleResponse, as a transformer of the server's tool registry
(its only state): error responses are logged and dropped; a response whose
ID is the tools/list ID and whose result has the expected shape replaces
the registry; every other response — including any response carrying the
tools/call ID — leaves the registry untouched and is delivered to no one. -/
def handleResponse (tools : List MCPTool) (resp : MCPResponse) :
    List MCPTool :=
  match resp.error with
  | some _ => tools
  | none =>
      if resp.id = mcpListToolsRequestID then
        match resp.result with
        | some (.obj toolsData) =>
            match mapGet toolsData "tools" with
            | some (.arr toolsArr) => toolsArr.filterMap parseTool
            | _ => tools
        | _ => tools
      else tools

/-- The tools/call request Server.callTool writes: always tagged with the
constant mcpCallToolRequestID. -/
def callToolRequest (name : String) (args : List (String × JSONValue)) :
    MCPRequest :=
  { jsonrpc := "2.0", id := mcpCallToolRequestID, method := "tools/call",
    params := some (.obj [("name", .str name), ("arguments", .obj args)]) }

/-- The select arm that resolves a Server.callTool invocation:
the context's cancellation fired first, the request write failed first, or
the goroutine's fabricated success value arrived (which it does right
after any successful write, with no involvement of the child process). -/
inductive CallEvent where
  | ctxDone (e : String)
  | writeError (e : String)
  | fabricatedReply
  deriving DecidableEq

/-- Server.callTool: returns the requests this call writes toward the
child process (at most the single tools/call request — the write is merely
attempted in the writeError case — and never any cancellation notice)
together with the call's outcome for the given winning select arm.  No arm
carries data read from the child process; the success value is the
fabricated map with the single key "success". -/
def callTool (name : String) (args : List (String × JSONValue))
    (ev : CallEvent) : List MCPRequest × Except String JSONValue :=
  match ev with
  | .ctxDone e => ([callToolRequest name args], .error e)
  | .writeError e => ([callToolRequest name args], .error e)
  | .fabricatedReply =>
      ([callToolRequest name args], .ok (.obj [("success", .bool true)]))

/-- C1: contrary to the claim, Server.callTool fabricates its success
value.  Whenever the request write succeeds and cancellation does not fire
first, the call returns the constant document with the single field
"success": true — for every tool name and argument list, with no
dependence on any response from the child process (the code's own comment:
"In a full implementation, this would read the actual MCP response"). -/
theorem claim_C1_fabricated_result (name : String)
    (args : List (String × JSONValue)) :
    (callTool name args .fabricatedReply).2 =
      .ok (.obj [("success", .bool true)]) := rfl

/-- C2: contrary to the claim, no fresh correlation IDs are allocated:
every tools/call request carries the constant ID 99, so any two calls —
including concurrent ones — share the same ID. -/
theorem claim_C2_constant_correlation_id (name₁ name₂ : String)
    (args₁ args₂ : List (String × JSONValue)) :
    (callToolRequest name₁ args₁).id = 99
    ∧ (callToolRequest name₂ args₂).id = (callToolRequest name₁ args₁).id :=
  ⟨rfl, rfl⟩

/-- C8: a call whose cancellation fires first returns the context's error
(Cancelled) immediately, having written nothing beyond the tools/call
request itself (no cancellation notice to the child process); and the
shared reader discards any response tagged with the tools/call ID — the
registry is unchanged and nothing is delivered — so a late reply cannot be
resurrected.  (The code keeps no pending-request table at all, so no table
entry can remain.) -/
theorem claim_C8_cancellation (name : String)
    (args : List (String × JSONValue)) (e : String)
    (tools : List MCPTool) (resp : MCPResponse) :
    callTool name args (.ctxDone e) =
        ([callToolRequest name args], .error e)
    ∧ (resp.id = mcpCallToolRequestID → handleResponse tools resp = tools) := by
  refine ⟨rfl, fun hid => ?_⟩
  unfold handleResponse
  cases herr : resp.error with
  | some err => rfl
  | none =>
      have : ¬resp.id = mcpListToolsRequestID := by
        rw [hid]
        decide
      simp [this]

theorem claim_C8_cancellation_witness :
    callTool "echo" [] (.ctxDone "context canceled") =
        ([callToolRequest "echo" []], .error "context canceled")
    ∧ handleResponse []
        { jsonrpc := "2.0", id := 99, result := some (.str "late"),
          error := none } = [] :=
  ⟨(claim_C8_cancellation "echo" [] "context canceled" []
      { jsonrpc := "2.0", id := 99, result := some (.str "late"),
        error := none }).1,
    (claim_C8_cancellation "echo" [] "context canceled" []
      { jsonrpc := "2.0", id := 99, result := some (.str "late"),
        error := none }).2 rfl⟩

/-- C9: the call delivers exactly one outcome (it is a function of the
winning select arm), but — contrary to the claim's second half — the only
arm producing a success is the goroutine's fabricated reply, which arrives
right after any successful write regardless of whether the child process
ever responds: a call on a never-replying process with no cancellation does
not suspend, it returns the fabricated success. -/
theorem claim_C9_no_reply_delivery_arm (name : String)
    (args : List (String × JSONValue)) (ev : CallEvent) :
    (callTool name args ev).2 = .ok (.obj [("success", .bool true)])
      ↔ ev = .fabricatedReply := by
  cases ev with
  | ctxDone e => simp [callTool]
  | writeError e => simp [callTool]
  | fabricatedReply => simp [callTool]

/-! Embedding of the provider adapters' HTTP path (openai.go, anthropic.go,
ollama.go).  The network round trip performed inside makeRequest is passed
in as an explicit `HTTPOutcome` oracle: the http.Client.Do error, the
io.ReadAll error, or the response's status code, raw body, and the result
of json.Unmarshal on that body.  json.Marshal of the payload cannot fail
for the map payloads these adapters build, so it is embedded as total. -/

/-- Outcome of the HTTP round trip inside a makeRequest call. -/
inductive HTTPOutcome where
  | doError (msg : String)
  | readError (msg : String)
  | response (status : Int) (body : String) (parsed : Option JSONValue)

/-- The distinguishable error values a makeRequest call can return:
the http.Client.Do error propagated as-is (the spec's
ProviderUnreachableError), the io.ReadAll error propagated as-is, the
formatted "API request failed with status %d: %s" error carrying status
and body (the spec's ProviderTransportError), and a json.Unmarshal
failure. -/
inductive ProviderError where
  | unreachable (msg : String)
  | ioError (msg : String)
  | transport (status : Int) (body : String)
  | parseError
  deriving DecidableEq

/-- The outbound HTTP request a makeRequest call constructs. -/
structure HTTPRequest where
  method : String
  url : String
  headers : List (String × String)
  body : JSONValue

/-- OpenAIProvider.makeRequest: POST to baseURL+endpoint with Bearer
authorization; any status other than http.StatusOK (200) yields the
status-and-body error before the body is ever parsed; a 200 body is
returned exactly as json.Unmarshal produced it. -/
def OpenAIProvider.makeRequest (p : OpenAIProvider) (endpoint : String)
    (payload : JSONValue) (outcome : HTTPOutcome) :
    HTTPRequest × Except ProviderError JSONValue :=
  ({ method := "POST", url := p.baseURL ++ endpoint,
     headers := [("Content-Type", "application/json"),
                 ("Authorization", "Bearer " ++ p.apiKey)],
     body := payload },
   match outcome with
   | .doError msg => .error (.unreachable msg)
   | .readError msg => .error (.ioError msg)
   | .response status body parsed =>
       if status ≠ 200 then .error (.transport status body)
       else
         match parsed with
         | some result => .ok result
         | none => .error .parseError)

/-- AnthropicProvider.makeRequest: POST with x-api-key and
anthropic-version headers; same status handling as the other adapters. -/
def AnthropicProvider.makeRequest (p : AnthropicProvider) (endpoint : String)
    (payload : JSONValue) (outcome : HTTPOutcome) :
    HTTPRequest × Except ProviderError JSONValue :=
  ({ method := "POST", url := p.baseURL ++ endpoint,
     headers := [("Content-Type", "application/json"),
                 ("x-api-key", p.apiKey),
                 ("anthropic-version", "2023-06-01")],
     body := payload },
   match outcome with
   | .doError msg => .error (.unreachable msg)
   | .readError msg => .error (.ioError msg)
   | .response status body parsed =>
       if status ≠ 200 then .error (.transport status body)
       else
         match parsed with
         | some result => .ok result
         | none => .error .parseError)

/-- OllamaProvider.makeRequest: POST with no auth header; same status
handling as the other adapters. -/
def OllamaProvider.makeRequest (p : OllamaProvider) (endpoint : String)
    (payload : JSONValue) (outcome : HTTPOutcome) :
    HTTPRequest × Except ProviderError JSONValue :=
  ({ method := "POST", url := p.baseURL ++ endpoint,
     headers := [("Content-Type", "application/json")],
     body := payload },
   match outcome with
   | .doError msg => .error (.unreachable msg)
   | .readError msg => .error (.ioError msg)
   | .response status body parsed =>
       if status ≠ 200 then .error (.transport status body)
       else
         match parsed with
         | some result => .ok result
         | none => .error .parseError)

/-- The message-splitting loop of AnthropicProvider.ChatCompletion.  Each
message's "role" and "content" values are type-asserted to string — a
missing key or non-string value is a runtime panic, embedded as `none`.  A
"system" message overwrites the system accumulator (so the last one wins)
and is dropped; every other message is appended to the outgoing list. -/
def anthropicLoop (messages : List GoObject) (systemMessage : String)
    (acc : List (String × String)) :
    Option (String × List (String × String)) :=
  match messages with
  | [] => some (systemMessage, acc)
  | msg :: rest =>
      match mapGet msg "role" with
      | some (.str role) =>
          match mapGet msg "content" with
          | some (.str content) =>
              if role = "system" then anthropicLoop rest content acc
              else anthropicLoop rest systemMessage (acc ++ [(role, content)])
          | _ => none
      | _ => none

/-- The request body AnthropicProvider.ChatCompletion builds: model, the
non-system messages, max_tokens 4096, and — only when the accumulated
system string is non-empty — a top-level "system" field.  `none` embeds
the runtime panic on an ill-typed message. -/
def anthropicChatPayload (model : String) (messages : List GoObject) :
    Option JSONValue :=
  (anthropicLoop messages "" []).map fun res =>
    .obj
      ([("model", .str model),
        ("messages", .arr (res.2.map fun rc =>
          .obj [("role", .str rc.1), ("content", .str rc.2)])),
        ("max_tokens", .num 4096)] ++
       (if res.1 ≠ "" then [("system", .str res.1)] else []))

/-- AnthropicProvider.ChatCompletion: build the payload (possibly
panicking) and post it to the /messages endpoint. -/
def AnthropicProvider.ChatCompletion (p : AnthropicProvider) (model : String)
    (messages : List GoObject) (outcome : HTTPOutcome) :
    Option (HTTPRequest × Except ProviderError JSONValue) :=
  (anthropicChatPayload model messages).map fun payload =>
    p.makeRequest "/messages" payload outcome

/-- AnthropicProvider.Completion: wraps the prompt as a single user
message and reuses the chat path. -/
def AnthropicProvider.Completion (p : AnthropicProvider) (model : String)
    (prompt : String) (outcome : HTTPOutcome) :
    Option (HTTPRequest × Except ProviderError JSONValue) :=
  p.ChatCompletion model
    [[("role", .str "user"), ("content", .str prompt)]] outcome

/-- The "role" value of a message, when present and a string. -/
def msgRole (msg : GoObject) : Option String :=
  match mapGet msg "role" with
  | some (.str s) => some s
  | _ => none

/-- The "content" value of a message, when present and a string. -/
def msgContent (msg : GoObject) : Option String :=
  match mapGet msg "content" with
  | some (.str s) => some s
  | _ => none

/-- A message survives the adapter's type assertions exactly when both
"role" and "content" are present with string values. -/
def msgWellTyped (msg : GoObject) : Bool :=
  (msgRole msg).isSome && (msgContent msg).isSome

/-- A message whose role is the string "system". -/
def isSystemMsg (msg : GoObject) : Bool :=
  msgRole msg == some "system"

/-- Specification-side: the content of the last system-role message,
defaulting to `d` when there is none. -/
def lastSystemContentD (messages : List GoObject) (d : String) : String :=
  match (messages.filter isSystemMsg).getLast? with
  | some m => (msgContent m).getD ""
  | none => d

/-- Specification-side: the content of the last system-role message, or ""
when there is none. -/
def lastSystemContent (messages : List GoObject) : String :=
  lastSystemContentD messages ""

/-- Specification-side: the role/content pairs of the non-system messages,
in input order. -/
def nonSystemMessages (messages : List GoObject) : List (String × String) :=
  (messages.filter fun m => !(isSystemMsg m)).map fun m =>
    ((msgRole m).getD "", (msgContent m).getD "")

lemma wellTyped_inv (m : GoObject) (h : msgWellTyped m = true) :
    ∃ r c, mapGet m "role" = some (.str r)
      ∧ mapGet m "content" = some (.str c) := by
  unfold msgWellTyped msgRole msgContent at h
  rcases hr : mapGet m "role" with _ | val
  · rw [hr] at h
    simp at h
  · rcases hc : mapGet m "content" with _ | val2
    · rw [hr, hc] at h
      rcases val with _ | b | n | s | el | fs <;> simp at h
    · rw [hr, hc] at h
      rcases val with _ | b | n | s | el | fs <;>
        rcases val2 with _ | b2 | n2 | s2 | el2 | fs2 <;>
          simp at h <;> exact ⟨s, s2, rfl, rfl⟩

lemma anthropicLoop_cons_str (m : GoObject) (rest : List GoObject)
    (sys : String) (acc : List (String × String)) (r c : String)
    (hr : mapGet m "role" = some (.str r))
    (hc : mapGet m "content" = some (.str c)) :
    anthropicLoop (m :: rest) sys acc =
      if r = "system" then anthropicLoop rest c acc
      else anthropicLoop rest sys (acc ++ [(r, c)]) := by
  simp [anthropicLoop, hr, hc]

lemma anthropicLoop_cons_bad (m : GoObject) (rest : List GoObject)
    (sys : String) (acc : List (String × String))
    (hwt : msgWellTyped m = false) :
    anthropicLoop (m :: rest) sys acc = none := by
  unfold msgWellTyped msgRole msgContent at hwt
  rcases hr : mapGet m "role" with _ | val
  · simp [anthropicLoop, hr]
  · rcases hc : mapGet m "content" with _ | val2
    · rcases val with _ | b | n | s | el | fs <;> simp [anthropicLoop, hr, hc]
    · rw [hr, hc] at hwt
      rcases val with _ | b | n | s | el | fs <;>
        rcases val2 with _ | b2 | n2 | s2 | el2 | fs2 <;>
          simp [anthropicLoop, hr, hc] <;> simp at hwt

lemma isSystemMsg_of_role (m : GoObject) (r : String)
    (hr : mapGet m "role" = some (.str r)) :
    isSystemMsg m = decide (r = "system") := by
  by_cases h' : r = "system"
  · subst h'
    simp [isSystemMsg, msgRole, hr]
  · simp [isSystemMsg, msgRole, hr, h']

lemma lastSystemContentD_cons_system (m : GoObject) (rest : List GoObject)
    (sys c : String) (hsysm : isSystemMsg m = true)
    (hcontent : msgContent m = some c) :
    lastSystemContentD (m :: rest) sys = lastSystemContentD rest c := by
  unfold lastSystemContentD
  rw [List.filter_cons, if_pos (by rw [hsysm])]
  cases hfr : rest.filter isSystemMsg with
  | nil => simp [hfr, hcontent]
  | cons x xs =>
      rw [List.getLast?_cons_cons]
      cases hgl : (x :: xs).getLast? with
      | none =>
          exact absurd (List.getLast?_eq_none_iff.mp hgl)
            (List.cons_ne_nil x xs)
      | some y => rfl

lemma lastSystemContentD_cons_nonsystem (m : GoObject)
    (rest : List GoObject) (sys : String) (hsysm : isSystemMsg m = false) :
    lastSystemContentD (m :: rest) sys = lastSystemContentD rest sys := by
  unfold lastSystemContentD
  rw [List.filter_cons, if_neg (by rw [hsysm]; exact Bool.false_ne_true)]

lemma nonSystemMessages_cons_system (m : GoObject) (rest : List GoObject)
    (hsysm : isSystemMsg m = true) :
    nonSystemMessages (m :: rest) = nonSystemMessages rest := by
  unfold nonSystemMessages
  rw [List.filter_cons]
  simp [hsysm]

lemma nonSystemMessages_cons_nonsystem (m : GoObject) (rest : List GoObject)
    (r c : String) (hsysm : isSystemMsg m = false)
    (hrole : msgRole m = some r) (hcontent : msgContent m = some c) :
    nonSystemMessages (m :: rest) = (r, c) :: nonSystemMessages rest := by
  unfold nonSystemMessages
  rw [List.filter_cons]
  simp [hsysm, hrole, hcontent]

lemma anthropicLoop_wellTyped (messages : List GoObject) :
    ∀ (sys : String) (acc : List (String × String)),
    (∀ m ∈ messages, msgWellTyped m = true) →
    anthropicLoop messages sys acc =
      some (lastSystemContentD messages sys,
            acc ++ nonSystemMessages messages) := by
  induction messages with
  | nil =>
      intro sys acc _
      simp [anthropicLoop, lastSystemContentD, nonSystemMessages]
  | cons m rest ih =>
      intro sys acc h
      have hm : msgWellTyped m = true := h m (List.mem_cons_self m rest)
      have hrest : ∀ m' ∈ rest, msgWellTyped m' = true := fun m' hm' =>
        h m' (List.mem_cons_of_mem m hm')
      obtain ⟨r, c, hr, hc⟩ := wellTyped_inv m hm
      have hrole : msgRole m = some r := by simp [msgRole, hr]
      have hcontent : msgContent m = some c := by simp [msgContent, hc]
      rw [anthropicLoop_cons_str m rest sys acc r c hr hc]
      by_cases hsys : r = "system"
      · have hsysm : isSystemMsg m = true := by
          rw [isSystemMsg_of_role m r hr, hsys]
          simp
        rw [if_pos hsys, ih c acc hrest,
          lastSystemContentD_cons_system m rest sys c hsysm hcontent,
          nonSystemMessages_cons_system m rest hsysm]
      · have hsysm : isSystemMsg m = false := by
          rw [isSystemMsg_of_role m r hr]
          simp [hsys]
        rw [if_neg hsys, ih sys (acc ++ [(r, c)]) hrest,
          lastSystemContentD_cons_nonsystem m rest sys hsysm,
          nonSystemMessages_cons_nonsystem m rest r c hsysm hrole hcontent,
          List.append_assoc]
        rfl

lemma exists_bad_cons (m : GoObject) (rest : List GoObject)
    (hwt : msgWellTyped m = true) :
    (∃ m' ∈ rest, msgWellTyped m' = false)
      ↔ (∃ m' ∈ m :: rest, msgWellTyped m' = false) := by
  constructor
  · rintro ⟨m', hm', hw⟩
    exact ⟨m', List.mem_cons_of_mem m hm', hw⟩
  · rintro ⟨m', hm', hw⟩
    rcases List.mem_cons.mp hm' with rfl | hm''
    · rw [hwt] at hw
      exact Bool.noConfusion hw
    · exact ⟨m', hm'', hw⟩

lemma anthropicLoop_eq_none_iff (messages : List GoObject) :
    ∀ (sys : String) (acc : List (String × String)),
      anthropicLoop messages sys acc = none
        ↔ ∃ m ∈ messages, msgWellTyped m = false := by
  induction messages with
  | nil => intro sys acc; simp [anthropicLoop]
  | cons m rest ih =>
      intro sys acc
      cases hwt : msgWellTyped m with
      | false =>
          rw [anthropicLoop_cons_bad m rest sys acc hwt]
          exact ⟨fun _ => ⟨m, List.mem_cons_self m rest, hwt⟩, fun _ => rfl⟩
      | true =>
          obtain ⟨r, c, hr, hc⟩ := wellTyped_inv m hwt
          rw [anthropicLoop_cons_str m rest sys acc r c hr hc]
          by_cases hsys : r = "system"
          · rw [if_pos hsys, ih c acc]
            exact exists_bad_cons m rest hwt
          · rw [if_neg hsys, ih sys (acc ++ [(r, c)])]
            exact exists_bad_cons m rest hwt

/-- The request body built for a list of well-typed messages: the
non-system messages in order, max_tokens 4096, and a "system" field only
when the last system message's content is non-empty. -/
lemma anthropicChatPayload_wellTyped (model : String)
    (messages : List GoObject)
    (h : ∀ m ∈ messages, msgWellTyped m = true) :
    anthropicChatPayload model messages =
      some (.obj
        ([("model", .str model),
          ("messages", .arr ((nonSystemMessages messages).map fun rc =>
            .obj [("role", .str rc.1), ("content", .str rc.2)])),
          ("max_tokens", .num 4096)] ++
         (if lastSystemContent messages ≠ "" then
            [("system", .str (lastSystemContent messages))] else []))) := by
  unfold anthropicChatPayload
  rw [anthropicLoop_wellTyped messages "" [] h]
  simp [lastSystemContent]

/-- The observable fields of the request body built for well-typed
messages (shared between the C7 and C10 results below). -/
lemma anthropicPayload_fields (model : String) (messages : List GoObject)
    (h : ∀ m ∈ messages, msgWellTyped m = true) :
    ∃ payload, anthropicChatPayload model messages = some payload
      ∧ payload.getField "model" = some (.str model)
      ∧ payload.getField "messages" =
          some (.arr ((nonSystemMessages messages).map fun rc =>
            .obj [("role", .str rc.1), ("content", .str rc.2)]))
      ∧ payload.getField "max_tokens" = some (.num 4096)
      ∧ payload.getField "system" =
          (if lastSystemContent messages = "" then none
           else some (.str (lastSystemContent messages))) := by
  refine ⟨_, anthropicChatPayload_wellTyped model messages h, ?_, ?_, ?_, ?_⟩
  · simp [JSONValue.getField, mapGet]
  · by_cases hs : lastSystemContent messages = "" <;>
      simp [JSONValue.getField, mapGet, hs]
  · by_cases hs : lastSystemContent messages = "" <;>
      simp [JSONValue.getField, mapGet, hs]
  · by_cases hs : lastSystemContent messages = "" <;>
      simp [JSONValue.getField, mapGet, hs]

/-- C7 amended: every system-role message is removed from the outgoing
messages; the content of the LAST system message, when non-empty, is
promoted to the top-level system field (when it is empty the field is
omitted — see the counterexample); the remaining messages become the
messages array in order; and max_tokens 4096 is always present. -/
theorem claim_C7_system_promotion (model : String)
    (messages : List GoObject)
    (h : ∀ m ∈ messages, msgWellTyped m = true) :
    ∃ payload, anthropicChatPayload model messages = some payload
      ∧ payload.getField "model" = some (.str model)
      ∧ payload.getField "messages" =
          some (.arr ((nonSystemMessages messages).map fun rc =>
            .obj [("role", .str rc.1), ("content", .str rc.2)]))
      ∧ payload.getField "max_tokens" = some (.num 4096)
      ∧ payload.getField "system" =
          (if lastSystemContent messages = "" then none
           else some (.str (lastSystemContent messages))) :=
  anthropicPayload_fields model messages h

/-- The message list of C7's literal scenario with S = "" : one system
message with empty content, then one user message. -/
def sysEmptyMessages : List GoObject :=
  [[("role", .str "system"), ("content", .str "")],
   [("role", .str "user"), ("content", .str "U")]]

/-- C7 counterexample: for the claim's input shape with S = "", the built
request body has NO "system" field at all (the claim asserts the system
content is always promoted, which here would require system == "").  The
payload exists (no panic) and its "system" lookup is `none`. -/
theorem claim_C7_counterexample :
    ((anthropicChatPayload "claude-3-sonnet" sysEmptyMessages).map
        fun payload => payload.getField "system") = some none
    ∧ some (Option.none (α := JSONValue))
        ≠ some (some (JSONValue.str "")) := by
  constructor
  · rfl
  · intro hcontra
    injection hcontra with hcontra'
    exact Option.noConfusion hcontra'

/-- The message list of C7's literal scenario with a non-empty S. -/
def sysPromotedMessages : List GoObject :=
  [[("role", .str "system"), ("content", .str "You are helpful")],
   [("role", .str "user"), ("content", .str "U")]]

theorem claim_C7_system_promotion_witness :
    ∃ payload,
      anthropicChatPayload "claude-3-sonnet" sysPromotedMessages
          = some payload
      ∧ payload.getField "model" = some (.str "claude-3-sonnet")
      ∧ payload.getField "messages" =
          some (.arr ((nonSystemMessages sysPromotedMessages).map fun rc =>
            .obj [("role", .str rc.1), ("content", .str rc.2)]))
      ∧ payload.getField "max_tokens" = some (.num 4096)
      ∧ payload.getField "system" =
          (if lastSystemContent sysPromotedMessages = "" then none
           else some (.str (lastSystemContent sysPromotedMessages))) :=
  claim_C7_system_promotion "claude-3-sonnet" sysPromotedMessages (by decide)

/-- C10: the Anthropic chat path demands string "role" and "content"
values on every message — the build panics (none) exactly when some
message lacks one of them or holds a non-string value there — and when
every system message carries the empty string as content, the request body
omits the "system" field entirely. -/
theorem claim_C10_type_assertion_panic (model : String)
    (messages : List GoObject) :
    (anthropicChatPayload model messages = none
      ↔ ∃ m ∈ messages, msgWellTyped m = false)
    ∧ ((∀ m ∈ messages, msgWellTyped m = true) →
       (∀ m ∈ messages, isSystemMsg m = true → msgContent m = some "") →
       ∃ payload, anthropicChatPayload model messages = some payload
         ∧ payload.getField "system" = none) := by
  constructor
  · rw [← anthropicLoop_eq_none_iff messages "" []]
    unfold anthropicChatPayload
    cases hl : anthropicLoop messages "" [] with
    | none => simp
    | some res => simp
  · intro hwt hsys
    have hlast : lastSystemContent messages = "" := by
      unfold lastSystemContent lastSystemContentD
      cases hfr : (messages.filter isSystemMsg).getLast? with
      | none => rfl
      | some m =>
          obtain ⟨hne, heq⟩ := List.mem_getLast?_eq_getLast
            (Option.mem_def.mpr hfr)
          have hmem : m ∈ messages.filter isSystemMsg := by
            rw [heq]
            exact List.getLast_mem hne
          have hmem' := List.mem_filter.mp hmem
          have hc0 : msgContent m = some "" := hsys m hmem'.1 hmem'.2
          simp [hc0]
    obtain ⟨payload, hp, _, _, _, hsysfield⟩ :=
      anthropicPayload_fields model messages hwt
    exact ⟨payload, hp, by rw [hsysfield, if_pos hlast]⟩

theorem claim_C10_type_assertion_panic_witness :
    ∃ payload,
      anthropicChatPayload "claude-3-sonnet" sysEmptyMessages = some payload
      ∧ payload.getField "system" = none :=
  (claim_C10_type_assertion_panic "claude-3-sonnet" sysEmptyMessages).2
    (by decide) (by decide)

/-- C6 amended: in every adapter's makeRequest, a response with any status
code other than 200 — including 2xx codes such as 201 or 204 — yields the
transport error carrying exactly that status and the raw body, and only
non-200 statuses do; an error from the network round trip itself is
propagated as the unreachable error; and a 200 response returns the parsed
document unnormalized (exactly as json.Unmarshal produced it; a body that
fails to parse yields the parse error instead). -/
theorem claim_C6_transport_classification (pO : OpenAIProvider)
    (pA : AnthropicProvider) (pL : OllamaProvider) (endpoint : String)
    (payload : JSONValue) :
    (∀ (status : Int) (body : String) (parsed : Option JSONValue),
        ((pO.makeRequest endpoint payload
              (.response status body parsed)).2
            = .error (.transport status body) ↔ status ≠ 200)
      ∧ ((pA.makeRequest endpoint payload
              (.response status body parsed)).2
            = .error (.transport status body) ↔ status ≠ 200)
      ∧ ((pL.makeRequest endpoint payload
              (.response status body parsed)).2
            = .error (.transport status body) ↔ status ≠ 200))
    ∧ (∀ msg : String,
        (pO.makeRequest endpoint payload (.doError msg)).2
            = .error (.unreachable msg)
      ∧ (pA.makeRequest endpoint payload (.doError msg)).2
            = .error (.unreachable msg)
      ∧ (pL.makeRequest endpoint payload (.doError msg)).2
            = .error (.unreachable msg))
    ∧ (∀ (body : String) (v : JSONValue),
        ((pO.makeRequest endpoint payload (.response 200 body (some v))).2
            = .ok v
          ∧ (pO.makeRequest endpoint payload (.response 200 body none)).2
            = .error .parseError)
      ∧ ((pA.makeRequest endpoint payload (.response 200 body (some v))).2
            = .ok v
          ∧ (pA.makeRequest endpoint payload (.response 200 body none)).2
            = .error .parseError)
      ∧ ((pL.makeRequest endpoint payload (.response 200 body (some v))).2
            = .ok v
          ∧ (pL.makeRequest endpoint payload (.response 200 body none)).2
            = .error .parseError)) := by
  refine ⟨?_, ?_, ?_⟩
  · intro status body parsed
    refine ⟨?_, ?_, ?_⟩ <;>
    · constructor
      · intro heq hstatus
        rw [hstatus] at heq
        simp only [OpenAIProvider.makeRequest, AnthropicProvider.makeRequest,
          OllamaProvider.makeRequest, ne_eq, not_true_eq_false,
          if_false, ite_false] at heq
        cases parsed <;> simp_all
      · intro hstatus
        simp [OpenAIProvider.makeRequest, AnthropicProvider.makeRequest,
          OllamaProvider.makeRequest, hstatus]
  · intro msg
    exact ⟨rfl, rfl, rfl⟩
  · intro body v
    refine ⟨⟨?_, ?_⟩, ⟨?_, ?_⟩, ⟨?_, ?_⟩⟩ <;>
      simp [OpenAIProvider.makeRequest, AnthropicProvider.makeRequest,
        OllamaProvider.makeRequest]

/-- The OpenAI-compatible adapter built from the witness configuration. -/
def pOpenAIDemo : OpenAIProvider := NewOpenAIProvider env0 cfgGPT

/-- C6 counterexample: status 204 IS a 2xx status, yet makeRequest turns it
into the transport error — the code tests status != 200, not "non-2xx", so
"only non-2xx statuses do so" is false. -/
theorem claim_C6_counterexample :
    (pOpenAIDemo.makeRequest "/chat/completions" (.obj [])
        (.response 204 "" (some .null))).2
      = .error (.transport 204 "")
    ∧ (200 : Int) ≤ 204 ∧ (204 : Int) < 300 :=
  ⟨rfl, by decide, by decide⟩

end Modelplex
